import Mathlib

/-!
A shallow embedding of `src/studip_sync/studip_sync.py` (studip-sync): the
extractor (`Extractor`), the download session (`Downloader`), the merge wrapper
(`RsyncWrapper`) and the orchestrator (`StudipSync`), together with theorems
checking the repository's specification against this embedding.

Directory trees are modelled as finite labelled trees, Python exceptions as an
explicit exception type, and the outside world (web portal pages, HTTP
responses, archive files) as explicit parameters of the modelled functions.
-/

namespace StudipSyncModel

/-- A file-system subtree: a regular file with its content, or a directory
with its named entries (in listing order). -/
inductive FSTree where
  | file (content : String)
  | dir (entries : List (String × FSTree))
deriving Repr

/-- The entry list of a directory. -/
abbrev Entries := List (String × FSTree)

/-- The Python exceptions the modelled code can raise or handle:
`DownloadError` and `ExtractionError` are the two classes declared by the
program; `zipfile.BadZipFile`, `FileNotFoundError`, `NotADirectoryError` and a
catch-all `osError` are raised by the standard library; `systemExit` models
`exit(code)`. -/
inductive PyExc where
  | downloadError (msg : String)
  | extractionError (msg : String)
  | badZipFile
  | fileNotFoundError
  | notADirectoryError
  | osError
  | systemExit (code : Nat)
deriving Repr, DecidableEq

/-- The exceptions the Python standard library can raise inside
`Extractor.extract` — `DownloadError`, `ExtractionError` and `exit` are raised
only by this program's own code, never by `zipfile`, `os`, `glob` or
`shutil`. -/
inductive LibExc where
  | badZipFile
  | fileNotFoundError
  | notADirectoryError
  | osError
deriving Repr, DecidableEq

/-- The view of a library exception at the program's level. -/
def LibExc.toPyExc : LibExc → PyExc
  | LibExc.badZipFile => PyExc.badZipFile
  | LibExc.fileNotFoundError => PyExc.fileNotFoundError
  | LibExc.notADirectoryError => PyExc.notADirectoryError
  | LibExc.osError => PyExc.osError

/-- The archive file named by `archive_filename`, as seen through
`zipfile.ZipFile`:
* `openErr` — exception raised by `zipfile.ZipFile(archive_filename, "r")`
  (`badZipFile` for a corrupt or non-archive file, `fileNotFoundError` for a
  missing path), if any;
* `tree` — the entries `z.extractall(destination)` materialises under the
  destination directory: the full archive contents when extraction succeeds,
  the prefix already written when it fails part-way;
* `extractErr` — exception raised by `z.extractall` after writing `tree`, if
  any (`badZipFile` for a member corrupt behind a valid central directory, an
  OS-level error otherwise). -/
structure Zip where
  openErr : Option LibExc := none
  tree : Entries := []
  extractErr : Option LibExc := none

/-- glob's `*` pattern does not match names beginning with a dot. -/
def globStarMatches (n : String) : Bool :=
  match n.data with
  | [] => true
  | c :: _ => c ≠ '.'

/-- The loop of `Extractor.remove_intermediary_dir` over
`glob.iglob(os.path.join(extracted_dir, subdirs[0], "*"))`: `shutil.move` each
glob match (the non-hidden entries of the single subdirectory `w`) up into the
parent directory.  Given the wrapper's remaining entries, returns the entries
moved up to the parent, the entries left inside the wrapper, and the exception
raised, if any: hidden entries are not glob matches and stay inside, and
`shutil.move` fails when a child is named like the wrapper itself (its
destination path already exists), stopping the loop there. -/
def moveLoop (w : String) : Entries → Entries × Entries × Option LibExc
  | [] => ([], [], none)
  | (n, t) :: rest =>
      if !globStarMatches n then
        let r := moveLoop w rest
        (r.1, (n, t) :: r.2.1, r.2.2)
      else if n = w then ([], (n, t) :: rest, some LibExc.osError)
      else
        let r := moveLoop w rest
        ((n, t) :: r.1, r.2.1, r.2.2)

namespace Extractor

/-- `Extractor.remove_intermediary_dir(extracted_dir)`: `os.listdir` the
directory; when it holds exactly one entry, move the entry's glob-visible
contents up one level and `os.rmdir` the entry.  The code never checks that
the single entry is a directory, and `os.rmdir` on a regular file raises
`NotADirectoryError`.  Takes the directory's entries; returns its entries
after the call and the exception raised, if any. -/
def remove_intermediary_dir (es : Entries) : Entries × Option LibExc :=
  match es with
  | [(w, FSTree.file c)] => ([(w, FSTree.file c)], some LibExc.notADirectoryError)
  | [(w, FSTree.dir sub)] =>
      match moveLoop w sub with
      | (moved, kept, some e) => (moved ++ [(w, FSTree.dir kept)], some e)
      | (moved, [], none) => (moved, none)
      | (moved, kept, none) =>
          -- the final os.rmdir fails: hidden entries remain inside the wrapper
          (moved ++ [(w, FSTree.dir kept)], some LibExc.osError)
  | _ => (es, none)

mutual
/-- One subtree of the `os.walk(directory)` pass of
`Extractor.remove_empty_dirs`: `os.walk` is top-down, so a directory is
removed (`none`) exactly when it is empty at the moment it is visited — that
is, empty in the input tree; a directory emptied by the later removal of its
children has already been visited and stays. -/
def walkPrune : FSTree → Option FSTree
  | FSTree.file c => some (FSTree.file c)
  | FSTree.dir [] => none
  | FSTree.dir (e :: es) => some (FSTree.dir (pruneEntries (e :: es)))

/-- The entries of a visited non-empty directory after the walk of
`Extractor.remove_empty_dirs` has passed over each of them. -/
def pruneEntries : Entries → Entries
  | [] => []
  | (n, t) :: rest =>
      match walkPrune t with
      | none => pruneEntries rest
      | some t2 => (n, t2) :: pruneEntries rest
end

/-- `Extractor.remove_empty_dirs(directory)` applied to the destination
directory itself: `os.walk` also yields the root, so an initially empty
destination is itself removed (`none`). -/
def remove_empty_dirs (es : Entries) : Option Entries :=
  match es with
  | [] => none
  | _ => some (pruneEntries es)

/-- The outcome of `Extractor.extract(archive_filename, destination,
cleanup)`:
* `staging` — the state of the destination directory
  (`<basedir>/<destination>`, i.e. `staging/<save_as>`) after the call:
  `none` when that directory does not exist, `some es` when it exists with
  entries `es`;
* `result` — `Except.ok ()` when extract returns (the returned value is the
  destination path), `Except.error e` when it raises `e`. -/
structure ExtractResult where
  staging : Option Entries
  result : Except PyExc Unit
deriving Repr

/-- The `except zipfile.BadZipFile` clause of `Extractor.extract`: only
`BadZipFile` is converted into
`ExtractionError("Cannot extract file: " + archive_filename)`; every other
exception propagates unchanged. -/
def wrapBadZip (archive_filename : String) : LibExc → PyExc
  | LibExc.badZipFile =>
      PyExc.extractionError ("Cannot extract file: " ++ archive_filename)
  | e => e.toPyExc

/-- The destination directory's state right after `z.extractall(destination)`:
`extractall` creates directories member by member, so a zip with no members
never creates the destination at all; otherwise the destination holds exactly
what `extractall` wrote (all of the archive, or the prefix written before a
mid-extraction failure). -/
def afterExtractall (z : Zip) : Option Entries :=
  match z.tree, z.extractErr with
  | [], none => none
  | es, _ => some es

/-- `Extractor.extract(archive_filename, destination, cleanup=True)` over the
archive model `z`: open the zip, `extractall` into the destination, then, when
`cleanup` is set, `remove_intermediary_dir` and `remove_empty_dirs`; a
`BadZipFile` raised anywhere in the body is converted by `wrapBadZip`, every
other exception propagates. -/
def extract (archive_filename : String) (z : Zip) (cleanup : Bool := true) :
    ExtractResult :=
  match z.openErr with
  | some e => ⟨none, Except.error (wrapBadZip archive_filename e)⟩
  | none =>
      match afterExtractall z, z.extractErr with
      | st, some e => ⟨st, Except.error (wrapBadZip archive_filename e)⟩
      | none, none =>
          if cleanup then
            -- os.listdir inside remove_intermediary_dir on the never-created
            -- destination raises FileNotFoundError
            ⟨none, Except.error (wrapBadZip archive_filename LibExc.fileNotFoundError)⟩
          else ⟨none, Except.ok ()⟩
      | some es, none =>
          if cleanup then
            match remove_intermediary_dir es with
            | (es2, some e) =>
                ⟨some es2, Except.error (wrapBadZip archive_filename e)⟩
            | (es2, none) => ⟨remove_empty_dirs es2, Except.ok ()⟩
          else ⟨some es, Except.ok ()⟩

end Extractor

/-- One element of `config.courses`: the remote course id, the destination
subpath `save_as`, and the optional `sync_only` sub-resource restriction
(`none` when the key is absent from the configuration). -/
structure Course where
  course_id : String
  save_as : String
  sync_only : Option String := none
deriving Repr, DecidableEq

/-- Python's `a or b` for an optional string `a`: `None` and the empty string
are falsy and fall through to `b`. -/
def pyOr (a : Option String) (b : String) : String :=
  match a with
  | none => b
  | some s => if s = "" then b else s

namespace Downloader

def baseURL : String := "https://studip.uni-passau.de/studip"

/-- What the course-files page `dispatch.php/course/files?cid=<course_id>`
offers the scraper: the value of the element named `parent_folder_id` (absent
when `find_element_by_name` raises `NoSuchElementException`), the
`STUDIP.CSRF_TOKEN.value`, and the driver's cookies. -/
structure CoursePage where
  parent_folder_id : Option String
  csrf_token : String
  cookies : List (String × String)

/-- The POST request `Downloader.download` hands to `requests.post`. -/
structure BulkRequest where
  url : String
  params : List (String × String)
  data : List (String × String)
  cookies : List (String × String)
deriving Repr, DecidableEq

/-- An HTTP response: `ok` is `requests`' `r.ok`, `body` the streamed bytes of
`r.raw`. -/
structure HttpResponse where
  ok : Bool
  body : String

/-- The bulk-download request built by `Downloader.download` after scraping
`folder_id`: URL `<base>/dispatch.php/file/bulk/<folder_id>`, params
`{cid: course_id}`, form data `security_token = <csrf>`,
`ids[] = sync_only or folder_id` (Python `or`), `download = 1`, and the
session's cookies copied from the driver. -/
def bulkRequest (page : CoursePage) (folder_id course_id : String)
    (sync_only : Option String) : BulkRequest where
  url := baseURL ++ "/dispatch.php/file/bulk/" ++ folder_id
  params := [("cid", course_id)]
  data := [("security_token", page.csrf_token),
           ("ids[]", pyOr sync_only folder_id),
           ("download", "1")]
  cookies := page.cookies

/-- Outcome of `Downloader.download(course_id, sync_only)`: the files written
into the downloads workdir (path with content), the bulk request issued (if
one was), and the returned path or the raised exception. -/
structure DownloadResult where
  written : List (String × String)
  request : Option BulkRequest
  result : Except PyExc String

/-- `Downloader.download(course_id, sync_only)`: scrape `parent_folder_id`
from the course-files page (`NoSuchElementException` becomes
`DownloadError("Could not locate parent folder for course: <id>")`), POST the
bulk request, raise `DownloadError("Download failed <url>")` on a non-success
status, else stream the body to `<workdir>/<course_id>` and return that
path. -/
def download (workdir : String) (page : CoursePage)
    (respond : BulkRequest → HttpResponse) (course_id : String)
    (sync_only : Option String := none) : DownloadResult :=
  match page.parent_folder_id with
  | none =>
      ⟨[], none, Except.error (PyExc.downloadError
        ("Could not locate parent folder for course: " ++ course_id))⟩
  | some folder_id =>
      let req := bulkRequest page folder_id course_id sync_only
      let r := respond req
      if r.ok then
        ⟨[(workdir ++ "/" ++ course_id, r.body)], some req,
          Except.ok (workdir ++ "/" ++ course_id)⟩
      else
        ⟨[], some req,
          Except.error (PyExc.downloadError ("Download failed " ++ req.url))⟩

def loginURL : String := baseURL ++ "/index.php?again=yes&sso=shib"

/-- The bound the code passes to `WebDriverWait(self.driver, 7)`. -/
def loginTimeout : Nat := 7

/-- The remote side of the login flow: the time (if ever) at which the element
with id `footer` — present only once login has succeeded — becomes present
after the credentials are submitted. -/
structure LoginEnv where
  footerAppearsAt : Option Nat

/-- Whether `WebDriverWait(driver, 7).until(presence_of_element_located((By.ID,
"footer")))` returns: the element must appear within the timeout. -/
def footerFound (env : LoginEnv) : Bool :=
  match env.footerAppearsAt with
  | some t => t ≤ loginTimeout
  | none => false

/-- How `Downloader._login` ends: normally, or by printing its messages and
calling `exit(code)` — which aborts the whole run. -/
inductive LoginResult where
  | ok
  | abortRun (printed : List String) (exitCode : Nat)
deriving Repr, DecidableEq

/-- `Downloader._login`'s outcome over the environment `env`: the bare
`except:` around the wait catches the timeout, prints `Login failed!` and
`Aborting`, quits the driver and calls `exit(1)`. -/
def login (env : LoginEnv) : LoginResult :=
  if footerFound env then LoginResult.ok
  else LoginResult.abortRun ["Login failed!", "Aborting"] 1

/-- The browser interactions of `Downloader._login`. -/
inductive BrowserAction where
  | goto (url : String)
  | clear (elementId : String)
  | sendKeys (elementId text : String)
  | pressEnter (elementId : String)
  | waitFor (elementId : String) (timeout : Nat)
  | quit
deriving Repr, DecidableEq

/-- The sequence of browser interactions `Downloader._login(username,
password)` performs: load the login page, fill and submit the credential form
once, wait for the `footer` element; on failure additionally quit the driver
(before `exit(1)`).  There is no retry loop: each field is filled exactly
once. -/
def loginTrace (username password : String) (env : LoginEnv) :
    List BrowserAction :=
  [BrowserAction.goto loginURL,
   BrowserAction.clear "username",
   BrowserAction.sendKeys "username" username,
   BrowserAction.clear "password",
   BrowserAction.sendKeys "password" password,
   BrowserAction.pressEnter "password",
   BrowserAction.waitFor "footer" loginTimeout] ++
  (if footerFound env then [] else [BrowserAction.quit])

end Downloader

namespace RsyncWrapper

/-- `RsyncWrapper.__init__`: the backup suffix is `"_" + timestr + ".old"`,
with one `timestr = datetime.now()` per wrapper — and one wrapper per run. -/
def suffix (timestr : String) : String := "_" ++ timestr ++ ".old"

/-- The argument vector `RsyncWrapper.sync(source, destination)` passes to
`subprocess.call`. -/
def command (timestr source destination : String) : List String :=
  ["rsync", "--recursive", "--checksum", "--backup",
   "--suffix=" ++ suffix timestr, source, destination]

end RsyncWrapper

/-- The merge invocation exactly as the spec words it (§6: equivalent to
invoking `rsync --recursive --checksum --backup --suffix=<ts>.old <source>/
<destination>`, with the suffix of the form `_<run-timestamp>.old` per §4.3),
to be compared with `RsyncWrapper.command`. -/
def specMergeCommand (ts sourceTree destinationTree : String) : List String :=
  ["rsync", "--recursive", "--checksum", "--backup",
   "--suffix=" ++ ("_" ++ ts ++ ".old"), sourceTree ++ "/", destinationTree]

/-- The per-course terminal states of the spec's state machine. -/
inductive Outcome where
  | staged
  | downloadFailed
  | extractionFailed
deriving Repr, DecidableEq

namespace StudipSync

/-- The `try/except` of `StudipSync.sync` around one course's body:
`DownloadError` and `ExtractionError` are caught and classified; any other
exception is not caught (`none`). -/
def classify : Except PyExc Unit → Option Outcome
  | Except.ok _ => some Outcome.staged
  | Except.error (PyExc.downloadError _) => some Outcome.downloadFailed
  | Except.error (PyExc.extractionError _) => some Outcome.extractionFailed
  | Except.error _ => none

/-- The lines `StudipSync.sync` prints when a course's download fails. -/
def downloadErrorLines (save_as : String) : List String :=
  ["ERROR: Download failed for '" ++ save_as ++ "'",
   "       Possible Reasons:",
   "       - Folder is bigger than 100MB (Stud.IP does not allow downloads > 100MB)",
   "       - You are not subscribed to the course and cannot access files"]

/-- The line `StudipSync.sync` prints when a course's extraction fails. -/
def extractionErrorLines (save_as : String) : List String :=
  ["ERROR: Extraction failed for '" ++ save_as ++ "'"]

/-- What one loop iteration prints for course `c` whose body ended in `r`:
the progress line, then the caught error's report; an uncaught exception
prints nothing further. -/
def courseLog (c : Course) (r : Except PyExc Unit) : List String :=
  ("Downloading '" ++ c.save_as ++ "'...") ::
  (match r with
   | Except.ok _ => []
   | Except.error (PyExc.downloadError _) => downloadErrorLines c.save_as
   | Except.error (PyExc.extractionError _) => extractionErrorLines c.save_as
   | Except.error _ => [])

/-- Result of the `for course in config.courses` loop: outcomes of the
courses it processed, the lines it printed, and the exception that escaped
it, if any. -/
structure LoopResult where
  outcomes : List (Course × Outcome)
  log : List String
  raised : Option PyExc

/-- The per-course loop of `StudipSync.sync`, with the body (download then
extract) abstracted by `step`: a caught failure is reported and the next
course proceeds; an uncaught exception ends the loop at once, leaving the
remaining courses unprocessed. -/
def courseLoop (step : Course → Except PyExc Unit) : List Course → LoopResult
  | [] => ⟨[], [], none⟩
  | c :: cs =>
      let r := step c
      match classify r with
      | some o =>
          let rest := courseLoop step cs
          ⟨(c, o) :: rest.outcomes, courseLog c r ++ rest.log, rest.raised⟩
      | none =>
          ⟨[], courseLog c r,
            match r with
            | Except.error e => some e
            | Except.ok _ => none⟩

/-- The body of the per-course `try`: `zip_location = downloader.download
(course["course_id"], course.get("sync_only"))` then
`extractor.extract(zip_location, course["save_as"])`; `pageOf` gives the
course-files page per course id, `zipOf` the archive model behind a
downloaded file path. -/
def courseBody (workdir : String) (pageOf : String → Downloader.CoursePage)
    (respond : Downloader.BulkRequest → Downloader.HttpResponse)
    (zipOf : String → Zip) (c : Course) : Except PyExc Unit :=
  match (Downloader.download workdir (pageOf c.course_id) respond
      c.course_id c.sync_only).result with
  | Except.error e => Except.error e
  | Except.ok path => (Extractor.extract path (zipOf path)).result

/-- The state of `staging/<save_as>` for course `c` after its loop iteration:
when the download raises, `extractor.extract` is never called and the
destination directory is never created. -/
def courseStaging (workdir : String) (pageOf : String → Downloader.CoursePage)
    (respond : Downloader.BulkRequest → Downloader.HttpResponse)
    (zipOf : String → Zip) (c : Course) : Option Entries :=
  match (Downloader.download workdir (pageOf c.course_id) respond
      c.course_id c.sync_only).result with
  | Except.error _ => none
  | Except.ok path => (Extractor.extract path (zipOf path)).staging

/-- Result of one whole run: whether the scratch workspace is gone afterwards,
the per-course outcomes, the printed lines, the `rsync` invocations made, and
the exception the run raised, if any. -/
structure RunResult where
  workdirRemoved : Bool
  outcomes : List (Course × Outcome)
  log : List String
  mergeCommands : List (List String)
  raised : Option PyExc

/-- Modelled from the spec: the program's entry point is not under `src/`;
§4.4 and §8 state that the orchestrator runs with scoped-cleanup semantics
("equivalent to a guaranteed finally block"), i.e. `StudipSync` is used as a
context manager whose `__exit__` calls `StudipSync.cleanup` —
`shutil.rmtree(self.workdir)` — on every exit path.  `run` is `StudipSync.sync`
under that wrapper: log in (`exit(1)` on failure raises `SystemExit`, which
still leaves through `__exit__`), run the per-course loop, and on its normal
end invoke `rsync.sync(self.extract_dir + "/", self.destination_dir)` exactly
once; the workdir is removed whether `sync` returns or raises. -/
def run (timestr extract_dir destination : String)
    (env : Downloader.LoginEnv) (step : Course → Except PyExc Unit)
    (courses : List Course) : RunResult :=
  match Downloader.login env with
  | Downloader.LoginResult.abortRun printed code =>
      { workdirRemoved := true
        outcomes := []
        log := "Logging in..." :: printed
        mergeCommands := []
        raised := some (PyExc.systemExit code) }
  | Downloader.LoginResult.ok =>
      let loop := courseLoop step courses
      match loop.raised with
      | some e =>
          { workdirRemoved := true
            outcomes := loop.outcomes
            log := "Logging in..." :: loop.log
            mergeCommands := []
            raised := some e }
      | none =>
          { workdirRemoved := true
            outcomes := loop.outcomes
            log := "Logging in..." :: loop.log ++
              ["Synchronizing with existing files..."]
            mergeCommands :=
              [RsyncWrapper.command timestr (extract_dir ++ "/") destination]
            raised := none }

end StudipSync

/-- The subtree a directory entry named `n` holds. -/
def findEntry (n : String) : Entries → Option FSTree
  | [] => none
  | (m, t) :: rest => if m = n then some t else findEntry n rest

/-- The subtree of `t` at the relative path `p`. -/
def subtreeAt : FSTree → List String → Option FSTree
  | t, [] => some t
  | FSTree.file _, _ :: _ => none
  | FSTree.dir es, n :: p =>
      match findEntry n es with
      | some t => subtreeAt t p
      | none => none

/-- Whether some entry named `n` exists in the entry list. -/
def hasKey (n : String) : Entries → Bool
  | [] => false
  | (m, _) :: rest => if m = n then true else hasKey n rest

mutual
/-- A well-formed directory tree: every directory's entry names are
distinct — the shape `os.listdir` guarantees for real directories. -/
def wfT : FSTree → Bool
  | FSTree.file _ => true
  | FSTree.dir es => wfE es

/-- Well-formedness of an entry list: names distinct, subtrees well-formed. -/
def wfE : Entries → Bool
  | [] => true
  | (n, t) :: rest => !hasKey n rest && wfT t && wfE rest
end

mutual
/-- Empty-directory pruning as the spec words it: applied post-order, leaves
first, so children are pruned before their parent is tested and a directory
emptied by its children's removal is removed as well.  To be compared with
`Extractor.walkPrune`. -/
def specPostPrune : FSTree → Option FSTree
  | FSTree.file c => some (FSTree.file c)
  | FSTree.dir es =>
      match specPostPruneEntries es with
      | [] => none
      | e :: es2 => some (FSTree.dir (e :: es2))

/-- The entries surviving the spec's post-order prune. -/
def specPostPruneEntries : Entries → Entries
  | [] => []
  | (n, t) :: rest =>
      match specPostPrune t with
      | none => specPostPruneEntries rest
      | some t2 => (n, t2) :: specPostPruneEntries rest
end

/-! ### Helper lemmas about the top-down pruning pass -/

theorem walkPrune_eq_none {t : FSTree} :
    Extractor.walkPrune t = none ↔ t = FSTree.dir [] := by
  cases t with
  | file c => simp [Extractor.walkPrune]
  | dir es =>
      cases es with
      | nil => simp [Extractor.walkPrune]
      | cons e es => simp [Extractor.walkPrune]

theorem findEntry_nil (n : String) : findEntry n [] = none := rfl

theorem findEntry_eq_none_of_hasKey {n : String} {es : Entries}
    (h : hasKey n es = false) : findEntry n es = none := by
  induction es with
  | nil => rfl
  | cons e rest ih =>
      obtain ⟨m, t⟩ := e
      by_cases hm : m = n
      · simp [hasKey, hm] at h
      · simp [hasKey, hm] at h
        simp [findEntry, hm, ih h]

theorem hasKey_pruneEntries {n : String} {es : Entries}
    (h : hasKey n es = false) : hasKey n (Extractor.pruneEntries es) = false := by
  induction es with
  | nil => rfl
  | cons e rest ih =>
      obtain ⟨m, t⟩ := e
      by_cases hm : m = n
      · simp [hasKey, hm] at h
      · simp [hasKey, hm] at h
        cases hw : Extractor.walkPrune t with
        | none => simp [Extractor.pruneEntries, hw, ih h]
        | some t2 => simp [Extractor.pruneEntries, hw, hasKey, hm, ih h]

theorem wfE_cons {n : String} {t : FSTree} {rest : Entries}
    (h : wfE ((n, t) :: rest) = true) :
    hasKey n rest = false ∧ wfT t = true ∧ wfE rest = true := by
  simp [wfE, Bool.and_eq_true] at h
  exact ⟨h.1.1, h.1.2, h.2⟩

theorem findEntry_wf {n : String} {es : Entries} {t : FSTree}
    (hw : wfE es = true) (h : findEntry n es = some t) : wfT t = true := by
  induction es with
  | nil => simp [findEntry] at h
  | cons e rest ih =>
      obtain ⟨m, t'⟩ := e
      obtain ⟨-, hwt, hwr⟩ := wfE_cons hw
      by_cases hm : m = n
      · simp [findEntry, hm] at h
        exact h ▸ hwt
      · simp [findEntry, hm] at h
        exact ih hwr h

theorem findEntry_pruneEntries {n : String} {es : Entries}
    (hw : wfE es = true) :
    findEntry n (Extractor.pruneEntries es) =
      (findEntry n es).bind Extractor.walkPrune := by
  induction es with
  | nil => rfl
  | cons e rest ih =>
      obtain ⟨m, t⟩ := e
      obtain ⟨hk, hwt, hwr⟩ := wfE_cons hw
      by_cases hm : m = n
      · subst hm
        cases hp : Extractor.walkPrune t with
        | none =>
            simp [Extractor.pruneEntries, hp, findEntry,
              findEntry_eq_none_of_hasKey (hasKey_pruneEntries hk)]
        | some t2 => simp [Extractor.pruneEntries, hp, findEntry]
      · cases hp : Extractor.walkPrune t with
        | none => simp [Extractor.pruneEntries, hp, findEntry, hm, ih hwr]
        | some t2 => simp [Extractor.pruneEntries, hp, findEntry, hm, ih hwr]

/-- The key fact about `Extractor.remove_empty_dirs`' `os.walk` pass: at every
non-root path, the pruned tree holds the prune of what the input tree held —
i.e. a subtree is removed exactly when it was an empty directory in the
*input*, the walk being top-down. -/
theorem walkPrune_subtreeAt :
    ∀ (p : List String) (t t2 : FSTree), wfT t = true →
      Extractor.walkPrune t = some t2 → p ≠ [] →
      subtreeAt t2 p = (subtreeAt t p).bind Extractor.walkPrune := by
  intro p
  induction p with
  | nil => intro t t2 _ _ hp; exact absurd rfl hp
  | cons n p ih =>
      intro t t2 hw ht _
      cases t with
      | file c =>
          simp [Extractor.walkPrune] at ht
          subst ht
          simp [subtreeAt]
      | dir es =>
          cases es with
          | nil => simp [Extractor.walkPrune] at ht
          | cons e rest =>
              simp only [Extractor.walkPrune, Option.some_inj] at ht
              subst ht
              have hwe : wfE (e :: rest) = true := hw
              rw [show subtreeAt (FSTree.dir (Extractor.pruneEntries (e :: rest)))
                    (n :: p) =
                  (match findEntry n (Extractor.pruneEntries (e :: rest)) with
                   | some t => subtreeAt t p
                   | none => none) from rfl]
              rw [findEntry_pruneEntries hwe]
              cases hf : findEntry n (e :: rest) with
              | none => simp [subtreeAt, hf]
              | some t' =>
                  cases hp' : Extractor.walkPrune t' with
                  | none =>
                      have ht' : t' = FSTree.dir [] := walkPrune_eq_none.mp hp'
                      subst ht'
                      cases p with
                      | nil => simp [subtreeAt, hf, hp']
                      | cons m p2 => simp [subtreeAt, hf, hp', findEntry_nil]
                  | some t2' =>
                      cases p with
                      | nil => simp [subtreeAt, hf, hp']
                      | cons m p2 =>
                          have h2 := ih t' t2' (findEntry_wf hwe hf) hp'
                            (by simp)
                          simp [subtreeAt, hf, hp', h2]

theorem walkPrune_eq_file {t : FSTree} {c : String} :
    Extractor.walkPrune t = some (FSTree.file c) ↔ t = FSTree.file c := by
  cases t with
  | file c2 => simp [Extractor.walkPrune]
  | dir es =>
      cases es with
      | nil => simp [Extractor.walkPrune]
      | cons e es => simp [Extractor.walkPrune]

theorem remove_empty_dirs_walkPrune {es es2 : Entries}
    (h : Extractor.remove_empty_dirs es = some es2) :
    Extractor.walkPrune (FSTree.dir es) = some (FSTree.dir es2) := by
  cases es with
  | nil => simp [Extractor.remove_empty_dirs] at h
  | cons e rest =>
      simp only [Extractor.remove_empty_dirs, Option.some_inj] at h
      simp [Extractor.walkPrune, h]

/-! ### The claims -/

/-- C1, counterexample.  The claim states that after flattening every
directory under `staging/<save_as>` containing neither files nor
subdirectories is removed, applied post-order (leaves first).  The code's
`Extractor.remove_empty_dirs` walks with `os.walk`'s default *top-down* order
instead: for an archive unpacking to `d1/d3` (with `d3` an empty directory)
next to a file `f`, the walk visits `d1` while `d3` is still inside it, then
removes only `d3` — after `extract` returns, `d1` remains under the staging
subtree even though it contains neither files nor subdirectories, whereas the
spec's post-order prune (`specPostPrune`) removes `d1` as well. -/
theorem extract_empty_dir_prune_not_post_order :
    (Extractor.extract "course1"
        { tree := [("d1", FSTree.dir [("d3", FSTree.dir [])]),
                   ("f", FSTree.file "x")] }).staging =
      some [("d1", FSTree.dir []), ("f", FSTree.file "x")] ∧
    specPostPrune
        (FSTree.dir [("d1", FSTree.dir [("d3", FSTree.dir [])]),
                     ("f", FSTree.file "x")]) =
      some (FSTree.dir [("f", FSTree.file "x")]) :=
  ⟨rfl, rfl⟩

/-- C1, amended.  The pruning pass of `Extractor.extract` is a single
top-down walk: a directory is removed exactly when it was empty *before* the
pass (then all of its ancestors keep their pruned images), files are never
touched, and a directory that only becomes empty through the removal of its
children remains.  The claim's particular scenario still holds: for an
archive producing `staging/S/empty1/empty2` with no files anywhere under it,
`extract` first hoists `empty2` directly under `S` (flattening), the walk then
removes it, and no directory remains under `staging/S`. -/
theorem extract_empty_dir_prune_top_down :
    Extractor.extract "course2"
        { tree := [("empty1", FSTree.dir [("empty2", FSTree.dir [])])] } =
      ⟨some [], Except.ok ()⟩ ∧
    (∀ (es es2 : Entries), wfE es = true →
      Extractor.remove_empty_dirs es = some es2 →
      ∀ (p : List String), p ≠ [] →
        subtreeAt (FSTree.dir es2) p =
          (subtreeAt (FSTree.dir es) p).bind Extractor.walkPrune) ∧
    (∀ (es es2 : Entries), wfE es = true →
      Extractor.remove_empty_dirs es = some es2 →
      ∀ (p : List String) (c : String), p ≠ [] →
        (subtreeAt (FSTree.dir es2) p = some (FSTree.file c) ↔
          subtreeAt (FSTree.dir es) p = some (FSTree.file c))) ∧
    (∀ (es es2 : Entries), wfE es = true →
      Extractor.remove_empty_dirs es = some es2 →
      ∀ (p : List String), p ≠ [] →
        subtreeAt (FSTree.dir es) p = some (FSTree.dir []) →
        subtreeAt (FSTree.dir es2) p = none) ∧
    (∀ (es es2 : Entries), wfE es = true →
      Extractor.remove_empty_dirs es = some es2 →
      ∀ (p : List String) (n : String) (t : FSTree) (l : Entries), p ≠ [] →
        subtreeAt (FSTree.dir es) p = some (FSTree.dir ((n, t) :: l)) →
        subtreeAt (FSTree.dir es2) p =
          some (FSTree.dir (Extractor.pruneEntries ((n, t) :: l)))) := by
  refine ⟨rfl, ?_, ?_, ?_, ?_⟩
  · intro es es2 hw h p hp
    exact walkPrune_subtreeAt p (FSTree.dir es) (FSTree.dir es2) hw
      (remove_empty_dirs_walkPrune h) hp
  · intro es es2 hw h p c hp
    rw [walkPrune_subtreeAt p (FSTree.dir es) (FSTree.dir es2) hw
      (remove_empty_dirs_walkPrune h) hp]
    constructor
    · intro hb
      cases hs : subtreeAt (FSTree.dir es) p with
      | none => rw [hs] at hb; simp at hb
      | some t0 =>
          rw [hs] at hb
          simp only [Option.some_bind] at hb
          rw [walkPrune_eq_file.mp hb]
    · intro hs
      rw [hs]
      simp [Extractor.walkPrune]
  · intro es es2 hw h p hp hs
    rw [walkPrune_subtreeAt p (FSTree.dir es) (FSTree.dir es2) hw
      (remove_empty_dirs_walkPrune h) hp, hs]
    simp [Extractor.walkPrune]
  · intro es es2 hw h p n t l hp hs
    rw [walkPrune_subtreeAt p (FSTree.dir es) (FSTree.dir es2) hw
      (remove_empty_dirs_walkPrune h) hp, hs]
    simp [Extractor.walkPrune]

/-- C2.  The claim (and the spec) condition the intermediary-directory
flattening on the single top-level entry *being a directory*.
`Extractor.remove_intermediary_dir` never checks that: for an archive whose
only top-level entry is a regular file, `glob` matches nothing and
`os.rmdir(<file>)` raises `NotADirectoryError`, which `extract` does not
convert (only `BadZipFile` is) — the run crashes instead of leaving the file
in place.  The claim's positive scenario does hold: a wrapper directory `D`
holding files `a`, `b` is flattened to `staging/S/a`, `staging/S/b`. -/
theorem extract_single_file_entry_crash :
    Extractor.extract "ok.zip" { tree := [("a.txt", FSTree.file "x")] } =
      ⟨some [("a.txt", FSTree.file "x")],
        Except.error PyExc.notADirectoryError⟩ ∧
    Extractor.extract "w.zip"
        { tree := [("D", FSTree.dir [("a", FSTree.file "1"),
                                     ("b", FSTree.file "2")])] } =
      ⟨some [("a", FSTree.file "1"), ("b", FSTree.file "2")],
        Except.ok ()⟩ :=
  ⟨rfl, rfl⟩

theorem courseLoop_all_caught (step : Course → Except PyExc Unit) :
    ∀ courses : List Course,
      (∀ c ∈ courses, (StudipSync.classify (step c)).isSome) →
      (StudipSync.courseLoop step courses).raised = none ∧
      (StudipSync.courseLoop step courses).outcomes =
        courses.map (fun c =>
          (c, (StudipSync.classify (step c)).getD Outcome.staged)) ∧
      (StudipSync.courseLoop step courses).log =
        courses.flatMap (fun c => StudipSync.courseLog c (step c)) := by
  intro courses
  induction courses with
  | nil => intro _; exact ⟨rfl, rfl, rfl⟩
  | cons c cs ih =>
      intro h
      obtain ⟨o, ho⟩ := Option.isSome_iff_exists.mp (h c (by simp))
      have hr := ih (fun d hd => h d (by simp [hd]))
      refine ⟨?_, ?_, ?_⟩
      · simp [StudipSync.courseLoop, ho, hr.1]
      · simp [StudipSync.courseLoop, ho, hr.2.1]
      · simp [StudipSync.courseLoop, ho, hr.2.2]

/-- C3.  When every course's body ends in success, `DownloadError` or
`ExtractionError` (the exceptions `StudipSync.sync`'s `try/except` catches),
the loop raises nothing, every configured course gets exactly one outcome in
`{staged, downloadFailed, extractionFailed}` — determined by its own body
alone, as the `List.map` form shows — each failure is reported by a line
naming the course's `save_as`, and replacing one course's body while keeping
another course's body unchanged never changes the latter's outcome
(isolation). -/
theorem courseLoop_isolates_failures
    (step : Course → Except PyExc Unit) (courses : List Course)
    (h : ∀ c ∈ courses, (StudipSync.classify (step c)).isSome) :
    (StudipSync.courseLoop step courses).raised = none ∧
    (StudipSync.courseLoop step courses).outcomes =
      courses.map (fun c =>
        (c, (StudipSync.classify (step c)).getD Outcome.staged)) ∧
    (∀ c ∈ courses, ∀ m : String,
        step c = Except.error (PyExc.downloadError m) →
        ("ERROR: Download failed for '" ++ c.save_as ++ "'") ∈
          (StudipSync.courseLoop step courses).log) ∧
    (∀ c ∈ courses, ∀ m : String,
        step c = Except.error (PyExc.extractionError m) →
        ("ERROR: Extraction failed for '" ++ c.save_as ++ "'") ∈
          (StudipSync.courseLoop step courses).log) ∧
    (∀ step2 : Course → Except PyExc Unit,
        (∀ c ∈ courses, (StudipSync.classify (step2 c)).isSome) →
        ∀ i : Nat, ∀ hi : i < courses.length,
          step2 (courses.get ⟨i, hi⟩) = step (courses.get ⟨i, hi⟩) →
          (StudipSync.courseLoop step2 courses).outcomes.get? i =
            (StudipSync.courseLoop step courses).outcomes.get? i) := by
  obtain ⟨h1, h2, h3⟩ := courseLoop_all_caught step courses h
  refine ⟨h1, h2, ?_, ?_, ?_⟩
  · intro c hc m hm
    rw [h3]
    exact List.mem_flatMap.mpr ⟨c, hc, by
      simp [StudipSync.courseLog, hm, StudipSync.downloadErrorLines]⟩
  · intro c hc m hm
    rw [h3]
    exact List.mem_flatMap.mpr ⟨c, hc, by
      simp [StudipSync.courseLog, hm, StudipSync.extractionErrorLines]⟩
  · intro step2 h2' i hi hstep
    obtain ⟨-, h2'', -⟩ := courseLoop_all_caught step2 courses h2'
    rw [h2, h2'', List.get?_eq_getElem?, List.get?_eq_getElem?,
      List.getElem?_map, List.getElem?_map,
      List.getElem?_eq_getElem hi]
    simp [List.get_eq_getElem] at hstep
    simp [hstep]

/-- Witness for `courseLoop_isolates_failures`: two courses, the first's
download failing, the second succeeding. -/
def coursesW : List Course :=
  [{ course_id := "c1", save_as := "Course A" },
   { course_id := "c2", save_as := "Course B" }]

/-- Witness step function: course `c1` raises `DownloadError`, the rest
succeed. -/
def stepW : Course → Except PyExc Unit := fun c =>
  if c.course_id = "c1" then Except.error (PyExc.downloadError "dl")
  else Except.ok ()

theorem courseLoop_isolates_failures_witness :
    (∀ c ∈ coursesW, (StudipSync.classify (stepW c)).isSome) ∧
    (StudipSync.courseLoop stepW coursesW).raised = none :=
  ⟨by decide, (courseLoop_isolates_failures stepW coursesW (by decide)).1⟩

/-- C4.  `StudipSync.cleanup` (`shutil.rmtree(self.workdir)`) runs on every
exit path of the run — login abort via `exit(1)` (a `SystemExit` leaving
through the context manager), an exception escaping the per-course loop, or
normal completion including the merge — so the scratch workspace no longer
exists after the run returns.  The entry point wrapping `StudipSync` in a
`with` block is not under `src/`; `StudipSync.run` models it from the spec's
scoped-cleanup wording. -/
theorem run_removes_workdir_on_all_paths
    (timestr extract_dir destination : String) (env : Downloader.LoginEnv)
    (step : Course → Except PyExc Unit) (courses : List Course) :
    (StudipSync.run timestr extract_dir destination env step
        courses).workdirRemoved = true := by
  cases h : Downloader.login env with
  | abortRun printed code => simp [StudipSync.run, h]
  | ok =>
      cases h2 : (StudipSync.courseLoop step courses).raised with
      | none => simp [StudipSync.run, h, h2]
      | some e => simp [StudipSync.run, h, h2]

/-- C5.  `Downloader._login` submits the given credentials to the remote
login form exactly once (the trace holds a single `sendKeys` per field — no
retry) and waits up to `loginTimeout = 7` time units for the element with id
`footer`, present only after a successful login; login succeeds exactly when
that element appears within the bound, and otherwise the code prints
`Login failed!` — the operator-visible login-failure report — and calls
`exit(1)`, which is fatal to the whole run: no course is processed and no
merge is attempted. -/
theorem login_waits_seven_and_failure_is_fatal
    (username password : String) (env : Downloader.LoginEnv)
    (timestr extract_dir destination : String)
    (step : Course → Except PyExc Unit) (courses : List Course) :
    Downloader.loginTimeout = 7 ∧
    Downloader.BrowserAction.waitFor "footer" 7 ∈
      Downloader.loginTrace username password env ∧
    ((Downloader.loginTrace username password env).filter
        (fun a => match a with
          | Downloader.BrowserAction.sendKeys "username" _ => true
          | _ => false)) =
      [Downloader.BrowserAction.sendKeys "username" username] ∧
    ((Downloader.loginTrace username password env).filter
        (fun a => match a with
          | Downloader.BrowserAction.sendKeys "password" _ => true
          | _ => false)) =
      [Downloader.BrowserAction.sendKeys "password" password] ∧
    (Downloader.login env = Downloader.LoginResult.ok ↔
      ∃ t, env.footerAppearsAt = some t ∧ t ≤ Downloader.loginTimeout) ∧
    (∀ (printed : List String) (code : Nat),
        Downloader.login env = Downloader.LoginResult.abortRun printed code →
        printed = ["Login failed!", "Aborting"] ∧ code = 1 ∧
        (StudipSync.run timestr extract_dir destination env step
            courses).outcomes = [] ∧
        (StudipSync.run timestr extract_dir destination env step
            courses).mergeCommands = [] ∧
        (StudipSync.run timestr extract_dir destination env step
            courses).raised = some (PyExc.systemExit 1) ∧
        "Login failed!" ∈ (StudipSync.run timestr extract_dir destination env
            step courses).log) := by
  refine ⟨rfl, ?_, ?_, ?_, ?_, ?_⟩
  · cases hf : Downloader.footerFound env <;>
      simp [Downloader.loginTrace, Downloader.loginTimeout, hf]
  · cases hf : Downloader.footerFound env <;>
      simp [Downloader.loginTrace, hf, List.filter]
  · cases hf : Downloader.footerFound env <;>
      simp [Downloader.loginTrace, hf, List.filter]
  · cases ha : env.footerAppearsAt with
    | none => simp [Downloader.login, Downloader.footerFound, ha]
    | some t => simp [Downloader.login, Downloader.footerFound, ha]
  · intro printed code hab
    cases hf : Downloader.footerFound env with
    | true => simp [Downloader.login, hf] at hab
    | false =>
        simp [Downloader.login, hf] at hab
        obtain ⟨hp, hc⟩ := hab
        subst hp hc
        have hl : Downloader.login env =
            Downloader.LoginResult.abortRun ["Login failed!", "Aborting"] 1 := by
          simp [Downloader.login, hf]
        refine ⟨rfl, rfl, ?_, ?_, ?_, ?_⟩ <;> simp [StudipSync.run, hl]

/-- A course-files page exposing root folder `F`, for concrete runs. -/
def pageW : Downloader.CoursePage :=
  { parent_folder_id := some "F", csrf_token := "tok", cookies := [] }

/-- Every course id resolves to `pageW`. -/
def pageOfW : String → Downloader.CoursePage := fun _ => pageW

/-- Every bulk request succeeds with body `"bytes"`. -/
def respondOkW : Downloader.BulkRequest → Downloader.HttpResponse :=
  fun _ => { ok := true, body := "bytes" }

/-- Every downloaded path holds an archive with one good member `a` followed
by a corrupt member: `extractall` writes `a`, then raises `BadZipFile`. -/
def zipOfW : String → Zip := fun _ =>
  { tree := [("a", FSTree.file "x")], extractErr := some LibExc.badZipFile }

/-- C6, counterexample.  A course whose archive holds a good member followed
by a corrupt one: `extractall` writes the good member and then raises
`BadZipFile`, which `extract` converts to `ExtractionError` — the course's
extraction *failed*, yet `staging/<save_as>` exists and is non-empty (the
already-extracted member remains), contradicting the claim that a failed
course leaves no partial staging subtree. -/
theorem course_partial_staging_counterexample :
    StudipSync.courseStaging "zips" pageOfW respondOkW zipOfW
        { course_id := "c1", save_as := "A" } =
      some [("a", FSTree.file "x")] ∧
    StudipSync.courseBody "zips" pageOfW respondOkW zipOfW
        { course_id := "c1", save_as := "A" } =
      Except.error (PyExc.extractionError "Cannot extract file: zips/c1") :=
  ⟨rfl, rfl⟩

/-- C6, amended.  `staging/<save_as>` exists for a course only if that
course's download returned a path and the downloaded archive opened as a
zip: a download failure means `extract` is never called, and an open failure
leaves the destination directory uncreated.  Full extraction success is,
however, not necessary: an archive failing mid-extraction can leave a
partial staging subtree (the counterexample). -/
theorem staging_requires_download_and_open
    (workdir : String) (pageOf : String → Downloader.CoursePage)
    (respond : Downloader.BulkRequest → Downloader.HttpResponse)
    (zipOf : String → Zip) (c : Course) :
    (∀ e : PyExc, (Downloader.download workdir (pageOf c.course_id) respond
          c.course_id c.sync_only).result = Except.error e →
        StudipSync.courseStaging workdir pageOf respond zipOf c = none) ∧
    (∀ path : String, (Downloader.download workdir (pageOf c.course_id)
          respond c.course_id c.sync_only).result = Except.ok path →
        (zipOf path).openErr.isSome →
        StudipSync.courseStaging workdir pageOf respond zipOf c = none) := by
  constructor
  · intro e he
    simp [StudipSync.courseStaging, he]
  · intro path hp ho
    obtain ⟨e, he⟩ := Option.isSome_iff_exists.mp ho
    simp [StudipSync.courseStaging, hp, Extractor.extract, he]

/-- C7, counterexample.  The claim scopes the bulk request to `restrict_id`
whenever it is given; the code computes `ids[] = sync_only or folder_id` with
Python `or`, for which the empty string is falsy — a given `sync_only = ""`
is silently replaced by the root folder id `F`. -/
theorem download_scope_empty_restrict_counterexample :
    (Downloader.download "zips" pageW respondOkW "c1" (some "")).request =
      some { url := "https://studip.uni-passau.de/studip/dispatch.php/file/bulk/F"
             params := [("cid", "c1")]
             data := [("security_token", "tok"), ("ids[]", "F"),
                      ("download", "1")]
             cookies := [] } ∧
    ("F" : String) ≠ "" :=
  ⟨rfl, by decide⟩

/-- C7, amended.  `Downloader.download` first resolves the root container id
(`parent_folder_id`), raising `DownloadError` naming the course when it is
absent; otherwise it issues one bulk request carrying the session's CSRF
token and cookies, scoped (`ids[]`) to `restrict_id` when that is given *and
non-empty* — Python `or` treats `""` as absent — else to the root container;
a non-success response raises `DownloadError` and writes no file, and on
success the body is streamed to `<workdir>/<course_id>`, which is
returned. -/
theorem download_request_characterization
    (workdir : String) (page : Downloader.CoursePage)
    (respond : Downloader.BulkRequest → Downloader.HttpResponse)
    (course_id : String) (sync_only : Option String) :
    (page.parent_folder_id = none →
      Downloader.download workdir page respond course_id sync_only =
        ⟨[], none, Except.error (PyExc.downloadError
          ("Could not locate parent folder for course: " ++ course_id))⟩) ∧
    (∀ fid : String, page.parent_folder_id = some fid →
      (Downloader.download workdir page respond course_id sync_only).request =
        some (Downloader.bulkRequest page fid course_id sync_only) ∧
      (Downloader.bulkRequest page fid course_id sync_only).data =
        [("security_token", page.csrf_token),
         ("ids[]", pyOr sync_only fid), ("download", "1")] ∧
      (Downloader.bulkRequest page fid course_id sync_only).cookies =
        page.cookies ∧
      (∀ s : String, sync_only = some s → s ≠ "" → pyOr sync_only fid = s) ∧
      (sync_only = none → pyOr sync_only fid = fid) ∧
      pyOr (some "") fid = fid ∧
      (¬(respond (Downloader.bulkRequest page fid course_id
            sync_only)).ok = true →
        Downloader.download workdir page respond course_id sync_only =
          ⟨[], some (Downloader.bulkRequest page fid course_id sync_only),
            Except.error (PyExc.downloadError ("Download failed " ++
              (Downloader.bulkRequest page fid course_id sync_only).url))⟩) ∧
      ((respond (Downloader.bulkRequest page fid course_id
            sync_only)).ok = true →
        Downloader.download workdir page respond course_id sync_only =
          ⟨[(workdir ++ "/" ++ course_id,
              (respond (Downloader.bulkRequest page fid course_id
                sync_only)).body)],
            some (Downloader.bulkRequest page fid course_id sync_only),
            Except.ok (workdir ++ "/" ++ course_id)⟩)) := by
  constructor
  · intro h
    simp [Downloader.download, h]
  · intro fid h
    refine ⟨?_, rfl, rfl, ?_, ?_, rfl, ?_, ?_⟩
    · cases hr : (respond (Downloader.bulkRequest page fid course_id
          sync_only)).ok <;> simp [Downloader.download, h, hr]
    · intro s hs hne
      simp [pyOr, hs, hne]
    · intro hs
      simp [pyOr, hs]
    · intro hr
      simp only [Bool.not_eq_true] at hr
      simp [Downloader.download, h, hr]
    · intro hr
      simp [Downloader.download, h, hr]

/-- C8, counterexample.  The message the code raises differs from the one the
claim quotes: a corrupt archive gives
`ExtractionError("Cannot extract file: bad.zip")`, not
`"cannot extract: bad.zip"`. -/
theorem extract_error_message_counterexample :
    (Extractor.extract "bad.zip" { openErr := some LibExc.badZipFile }).result =
      Except.error (PyExc.extractionError "Cannot extract file: bad.zip") ∧
    ("Cannot extract file: bad.zip" : String) ≠ "cannot extract: bad.zip" :=
  ⟨rfl, by decide⟩

/-- C8, amended.  For every archive path naming a corrupt or non-archive file
(`zipfile.ZipFile` raises `BadZipFile` at open), `extract` raises
`ExtractionError` with message `"Cannot extract file: <archive_path>"` — the
code's wording, against the claim's `"cannot extract: <archive_path>"` — and
the destination directory is never created, so nothing of the archive, least
of all the archive file itself (which stays in the downloads area), reaches
the staging or destination tree. -/
theorem extract_badzip_raises_extraction_error
    (archive_filename : String) (z : Zip) (cleanup : Bool)
    (h : z.openErr = some LibExc.badZipFile) :
    Extractor.extract archive_filename z cleanup =
      ⟨none, Except.error (PyExc.extractionError
        ("Cannot extract file: " ++ archive_filename))⟩ := by
  simp [Extractor.extract, h, Extractor.wrapBadZip]

theorem extract_badzip_raises_extraction_error_witness :
    ({ openErr := some LibExc.badZipFile : Zip }).openErr =
      some LibExc.badZipFile ∧
    Extractor.extract "bad2.zip" { openErr := some LibExc.badZipFile } true =
      ⟨none, Except.error (PyExc.extractionError
        "Cannot extract file: bad2.zip")⟩ :=
  ⟨rfl, extract_badzip_raises_extraction_error "bad2.zip" _ true rfl⟩

/-- C9.  The merge step is literally the invocation the spec names:
`RsyncWrapper.sync` passes `rsync --recursive --checksum --backup
--suffix=_<ts>.old <source>/ <destination>` to `subprocess.call`
(`specMergeCommand`), with one timestamp per run (the wrapper — and its
`datetime.now()` — is created once per `StudipSync.sync`), and the merge runs
exactly once, after all per-course work, on a normally completing run.  The
semantics is therefore rsync's under exactly those flags: recursive,
checksum-based change detection, overwritten destination files renamed with
the `_<ts>.old` suffix instead of deleted, content-identical files left
untouched. -/
theorem rsync_invocation_matches_spec
    (timestr extract_dir destination : String) (env : Downloader.LoginEnv)
    (step : Course → Except PyExc Unit) (courses : List Course) :
    RsyncWrapper.command timestr (extract_dir ++ "/") destination =
      specMergeCommand timestr extract_dir destination ∧
    RsyncWrapper.suffix timestr = "_" ++ timestr ++ ".old" ∧
    ((StudipSync.run timestr extract_dir destination env step
        courses).raised = none →
      (StudipSync.run timestr extract_dir destination env step
        courses).mergeCommands =
        [RsyncWrapper.command timestr (extract_dir ++ "/") destination]) ∧
    (StudipSync.run timestr extract_dir destination env step
        courses).mergeCommands.length ≤ 1 := by
  refine ⟨rfl, rfl, ?_, ?_⟩ <;>
    cases h : Downloader.login env with
  | abortRun printed code => simp [StudipSync.run, h]
  | ok =>
      cases h2 : (StudipSync.courseLoop step courses).raised <;>
        simp [StudipSync.run, h, h2]

theorem moveLoop_err_cases (w : String) :
    ∀ sub : Entries, (moveLoop w sub).2.2 = none ∨
      (moveLoop w sub).2.2 = some LibExc.osError := by
  intro sub
  induction sub with
  | nil => exact Or.inl rfl
  | cons e rest ih =>
      obtain ⟨n, t⟩ := e
      cases hg : globStarMatches n with
      | false => simpa [moveLoop, hg] using ih
      | true =>
          by_cases hw : n = w
          · subst hw
            exact Or.inr (by simp [moveLoop, hg])
          · simpa [moveLoop, hg, hw] using ih

theorem remove_intermediary_dir_err_cases (es : Entries) :
    (Extractor.remove_intermediary_dir es).2 = none ∨
    (Extractor.remove_intermediary_dir es).2 = some LibExc.notADirectoryError ∨
    (Extractor.remove_intermediary_dir es).2 = some LibExc.osError := by
  match es with
  | [] => exact Or.inl rfl
  | [(w, FSTree.file c)] => exact Or.inr (Or.inl rfl)
  | [(w, FSTree.dir sub)] =>
      rcases hm : moveLoop w sub with ⟨moved, kept, err⟩
      have herr := moveLoop_err_cases w sub
      rw [hm] at herr
      cases err with
      | some e =>
          rcases herr with h | h
          · simp at h
          · simp only [Option.some_inj] at h
            subst h
            exact Or.inr (Or.inr (by
              simp [Extractor.remove_intermediary_dir, hm]))
      | none =>
          cases kept with
          | nil => exact Or.inl (by simp [Extractor.remove_intermediary_dir, hm])
          | cons k ks =>
              exact Or.inr (Or.inr (by
                simp [Extractor.remove_intermediary_dir, hm]))
  | (n1, t1) :: (n2, t2) :: rest => cases t1 <;> exact Or.inl rfl

theorem wrapBadZip_of_ne {e : LibExc} (name : String)
    (h : e ≠ LibExc.badZipFile) :
    Extractor.wrapBadZip name e = e.toPyExc := by
  cases e with
  | badZipFile => exact absurd rfl h
  | fileNotFoundError => rfl
  | notADirectoryError => rfl
  | osError => rfl

/-- Every error `Extractor.extract` ends in is `wrapBadZip` of a library
exception; when neither the open nor `extractall` raised, that exception is
not `BadZipFile` (it is the `FileNotFoundError` of the never-created
destination, or a cleanup failure). -/
theorem extract_result_shape (name : String) (z : Zip) (cleanup : Bool) :
    (Extractor.extract name z cleanup).result = Except.ok () ∨
    ∃ e : LibExc, (Extractor.extract name z cleanup).result =
        Except.error (Extractor.wrapBadZip name e) ∧
      (z.openErr = some e ∨ (z.openErr = none ∧ z.extractErr = some e) ∨
        (z.openErr = none ∧ z.extractErr = none ∧
          e ≠ LibExc.badZipFile)) := by
  cases hz : z.openErr with
  | some e =>
      exact Or.inr ⟨e, by simp [Extractor.extract, hz], Or.inl rfl⟩
  | none =>
      cases hz2 : z.extractErr with
      | some e =>
          refine Or.inr ⟨e, ?_, Or.inr (Or.inl ⟨rfl, rfl⟩)⟩
          simp [Extractor.extract, hz, hz2, Extractor.afterExtractall]
      | none =>
          cases ht : z.tree with
          | nil =>
              cases cleanup with
              | false =>
                  exact Or.inl (by
                    simp [Extractor.extract, hz, hz2,
                      Extractor.afterExtractall, ht])
              | true =>
                  refine Or.inr ⟨LibExc.fileNotFoundError, ?_,
                    Or.inr (Or.inr ⟨rfl, rfl, by decide⟩)⟩
                  simp [Extractor.extract, hz, hz2,
                    Extractor.afterExtractall, ht]
          | cons e0 rest =>
              cases cleanup with
              | false =>
                  exact Or.inl (by
                    simp [Extractor.extract, hz, hz2,
                      Extractor.afterExtractall, ht])
              | true =>
                  rcases hrm : Extractor.remove_intermediary_dir (e0 :: rest)
                    with ⟨es2, err⟩
                  cases err with
                  | none =>
                      exact Or.inl (by
                        simp [Extractor.extract, hz, hz2,
                          Extractor.afterExtractall, ht, hrm])
                  | some e =>
                      refine Or.inr ⟨e, ?_, Or.inr (Or.inr ⟨rfl, rfl, ?_⟩)⟩
                      · simp [Extractor.extract, hz, hz2,
                          Extractor.afterExtractall, ht, hrm]
                      · rcases remove_intermediary_dir_err_cases (e0 :: rest)
                          with h | h | h <;> rw [hrm] at h <;> simp at h <;>
                          subst h <;> decide

theorem courseLoop_uncaught (step : Course → Except PyExc Unit) (c : Course)
    (e : PyExc) (post : List Course) (hc : step c = Except.error e)
    (hcl : StudipSync.classify (step c) = none) :
    ∀ pre : List Course,
      (∀ d ∈ pre, (StudipSync.classify (step d)).isSome) →
      (StudipSync.courseLoop step (pre ++ c :: post)).raised = some e ∧
      (StudipSync.courseLoop step (pre ++ c :: post)).outcomes =
        pre.map (fun d =>
          (d, (StudipSync.classify (step d)).getD Outcome.staged)) := by
  intro pre
  induction pre with
  | nil =>
      intro _
      have hcl2 : StudipSync.classify (Except.error e) = none := by
        rw [← hc]; exact hcl
      constructor
      · simp [StudipSync.courseLoop, hc, hcl2]
      · simp [StudipSync.courseLoop, hc, hcl2]
  | cons d ds ih =>
      intro h
      obtain ⟨o, ho⟩ := Option.isSome_iff_exists.mp (h d (by simp))
      have hr := ih (fun d2 hd2 => h d2 (by simp [hd2]))
      constructor
      · simp [StudipSync.courseLoop, ho, hr.1]
      · simp [StudipSync.courseLoop, ho, hr.2]

/-- C10.  `Extractor.extract` converts only `zipfile.BadZipFile` into
`ExtractionError` (with the code's message): any `ExtractionError` coming out
of `extract` stems from a `BadZipFile` raised at open or during `extractall`,
and every other library exception — a missing archive path's
`FileNotFoundError`, an OS error during extraction — propagates unchanged.
Because the per-course loop catches only `DownloadError` and
`ExtractionError`, such an exception escapes the loop: the remaining courses
are never processed and the final merge is skipped. -/
theorem extract_wraps_only_badzipfile :
    (∀ (name : String) (z : Zip) (cleanup : Bool) (m : String),
      (Extractor.extract name z cleanup).result =
        Except.error (PyExc.extractionError m) →
      m = "Cannot extract file: " ++ name ∧
      (z.openErr = some LibExc.badZipFile ∨
        z.extractErr = some LibExc.badZipFile)) ∧
    (∀ (name : String) (z : Zip) (cleanup : Bool) (e : LibExc),
      e ≠ LibExc.badZipFile →
      (z.openErr = some e →
        (Extractor.extract name z cleanup).result =
          Except.error e.toPyExc) ∧
      (z.openErr = none → z.extractErr = some e →
        (Extractor.extract name z cleanup).result =
          Except.error e.toPyExc)) ∧
    (∀ (step : Course → Except PyExc Unit) (pre post : List Course)
        (c : Course) (e : PyExc),
      (∀ d ∈ pre, (StudipSync.classify (step d)).isSome) →
      step c = Except.error e →
      StudipSync.classify (step c) = none →
      (StudipSync.courseLoop step (pre ++ c :: post)).raised = some e ∧
      (StudipSync.courseLoop step (pre ++ c :: post)).outcomes =
        pre.map (fun d =>
          (d, (StudipSync.classify (step d)).getD Outcome.staged)) ∧
      ∀ (timestr extract_dir destination : String)
        (env : Downloader.LoginEnv),
        (StudipSync.run timestr extract_dir destination env step
          (pre ++ c :: post)).mergeCommands = []) := by
  refine ⟨?_, ?_, ?_⟩
  · intro name z cleanup m hm
    rcases extract_result_shape name z cleanup with h | ⟨e, he, hsrc⟩
    · rw [hm] at h; exact absurd h (by simp)
    · rw [hm] at he
      cases e with
      | badZipFile =>
          refine ⟨?_, ?_⟩
          · simp [Extractor.wrapBadZip] at he
            exact he
          · rcases hsrc with h | ⟨h1, h2⟩ | ⟨h1, h2, h3⟩
            · exact Or.inl h
            · exact Or.inr h2
            · exact absurd rfl h3
      | fileNotFoundError => simp [Extractor.wrapBadZip, LibExc.toPyExc] at he
      | notADirectoryError => simp [Extractor.wrapBadZip, LibExc.toPyExc] at he
      | osError => simp [Extractor.wrapBadZip, LibExc.toPyExc] at he
  · intro name z cleanup e hne
    constructor
    · intro hz
      simp [Extractor.extract, hz, wrapBadZip_of_ne name hne]
    · intro hz hz2
      simp [Extractor.extract, hz, hz2, Extractor.afterExtractall,
        wrapBadZip_of_ne name hne]
  · intro step pre post c e hpre hc hcl
    have h1 := courseLoop_uncaught step c e post hc hcl pre hpre
    refine ⟨h1.1, h1.2, ?_⟩
    intro timestr extract_dir destination env
    cases h : Downloader.login env with
    | abortRun printed code => simp [StudipSync.run, h]
    | ok => simp [StudipSync.run, h, h1.1]

end StudipSyncModel
